import Mathlib

/-!
Verification development for the workflow-execution subsystem of the
Piazza-CRM repository (a browser CRM whose "workflow engine" runs a short
list of actions against a lead).

The definitions below are a shallow embedding of the TypeScript sources:
  * `src/services/llmService.ts`  — two concatenated `WorkflowService`
    variants; the executor model follows the first variant
    (`executeWorkflowForLead`, `executeAction`, `sendEmail`,
    `updateLeadStatus`, `createTask`, `extractActionsFromWorkflow`,
    `getExecutionHistory`, `getWorkflowMetrics`),
  * `src/services/backendEmailService.ts` — `isConfigured`,
  * `src/components/WorkflowDesigner.tsx` — `saveWorkflow`, `loadWorkflow`,
    `executeWorkflow`.
Machine timestamps (`Date.now()`, `new Date()`) are modelled as a `Nat`
millisecond clock; JS numbers that carry progress percentages are modelled
as exact rationals.  External collaborators (email transport, the progress
callback, the `dataService` lead repository) are resolved through an
explicit environment of oracles so that their success/failure behaviour is
a parameter of every run.
-/

namespace PiazzaCRM

/-! ### String helpers

JavaScript `String.prototype.includes` (substring test) and
`String.prototype.replace` with a string pattern (replaces the first
occurrence only), modelled on character lists. -/

/-- Is `pat` a prefix of `s` (character lists)? -/
def charsHaveLead : List Char → List Char → Bool
  | [], _ => true
  | _ :: _, [] => false
  | a :: as, b :: bs => a == b && charsHaveLead as bs

/-- Does `pat` occur inside `s` (character lists)?  JS `s.includes(pat)`. -/
def charsContain (pat : List Char) : List Char → Bool
  | [] => charsHaveLead pat []
  | c :: cs => charsHaveLead pat (c :: cs) || charsContain pat cs

/-- JS `s.includes(pat)` on strings. -/
def jsIncludes (s pat : String) : Bool :=
  charsContain pat.toList s.toList

/-- Replace the first occurrence of `pat` in `s` by `rep` (character
lists); `none` when `pat` does not occur. -/
def charsReplaceFirst (pat rep : List Char) : List Char → Option (List Char)
  | [] => if charsHaveLead pat [] then some rep else none
  | c :: cs =>
    if charsHaveLead pat (c :: cs) then
      some (rep ++ (c :: cs).drop pat.length)
    else
      match charsReplaceFirst pat rep cs with
      | some cs' => some (c :: cs')
      | none => none

/-- JS `s.replace(pat, rep)` with a plain-string pattern: replaces only the
first occurrence, returns `s` unchanged when `pat` does not occur. -/
def jsReplace (s pat rep : String) : String :=
  match charsReplaceFirst pat.toList rep.toList s.toList with
  | some cs => String.mk cs
  | none => s

/-! ### Data model (`llmService.ts` interfaces) -/

/-- `Lead` (lead repository entity; `createdAt` as a millisecond clock). -/
structure Lead where
  id : String
  name : String
  email : String
  phone : String
  status : String
  source : String
  createdAt : Nat
deriving Repr, DecidableEq

/-- The closed union `"send_email" | "update_status" | "create_task"` of
`WorkflowAction.type`. -/
inductive ActionType where
  | send_email
  | update_status
  | create_task
deriving Repr, DecidableEq

/-- The string stored in `WorkflowResult.actionType` for an action. -/
def ActionType.toStr : ActionType → String
  | .send_email => "send_email"
  | .update_status => "update_status"
  | .create_task => "create_task"

/-- `WorkflowAction` (the optional `config` field is never read by the
executor and is omitted). -/
structure WorkflowAction where
  id : String
  type : ActionType
  label : String
deriving Repr, DecidableEq

/-- `WorkflowResult.status` union. -/
inductive ResultStatus where
  | success
  | failed
  | skipped
deriving Repr, DecidableEq

/-- `WorkflowExecution.status` union. -/
inductive ExecStatus where
  | running
  | completed
  | failed
deriving Repr, DecidableEq

/-- `WorkflowTask` (`createTask` synthesizes one; it is never persisted). -/
structure WorkflowTask where
  id : String
  title : String
  description : String
  leadId : String
  dueDate : Nat
  status : String
  priority : String
  createdAt : Nat
deriving Repr, DecidableEq

/-- The structured `data` payload attached to a `WorkflowResult`:
email payloads carry `subject`/`body`/`to` plus the optional `status` and
`error` keys the first-variant `sendEmail` writes; `update_status` records
old/new status; `create_task` records the synthesized task. -/
inductive ResultData where
  | emailData (subject body toAddr : String) (status : Option String)
      (error : Option String)
  | statusData (oldStatus newStatus : String)
  | taskData (task : WorkflowTask)
deriving Repr, DecidableEq

/-- `WorkflowResult`. -/
structure WorkflowResult where
  actionId : String
  actionType : String
  actionLabel : String
  status : ResultStatus
  message : String
  timestamp : Nat
  data : Option ResultData
deriving Repr, DecidableEq

/-- `WorkflowExecution`; `progress` is an exact rational percentage. -/
structure WorkflowExecution where
  id : String
  leadId : String
  leadName : String
  actions : List WorkflowAction
  status : ExecStatus
  startTime : Nat
  endTime : Option Nat
  results : List WorkflowResult
  progress : ℚ
deriving Repr, DecidableEq

/-- `FollowUpTask` (only reachable through dead code; kept for the metrics
field `followUpsScheduled`). -/
structure FollowUpTask where
  id : String
  leadId : String
  leadName : String
  scheduledDate : Nat
  createdAt : Nat
deriving Repr, DecidableEq

/-- `EmailConfig` from `backendEmailService.ts`. -/
structure EmailConfig where
  email : String
  password : String
  name : String
deriving Repr, DecidableEq

/-- `BackendEmailService.isConfigured`: a config object is present and its
`email` and `password` fields are truthy (non-empty strings). -/
def isConfigured : Option EmailConfig → Bool
  | none => false
  | some c => c.email != "" && c.password != ""

/-! ### Environment of external collaborators

`executeWorkflowForLead` talks to four external things: the progress
callback supplied by the caller, the email transport
(`backendEmailService.sendEmail`), the lead repository's `updateLead`,
and the wall clock / locale.  Each is resolved by an oracle so a run is a
pure function of the starting state and this environment. -/

/-- Outcome of one `backendEmailService.sendEmail(...)` transport call:
the promise resolves `true` (accepted), resolves `false` (rejected), or
rejects with an error whose JS stringification is the given string. -/
inductive SendOutcome where
  | accepted
  | rejected
  | thrown (err : String)
deriving Repr, DecidableEq

/-- Environment of one service lifetime.
  * `emailConfig` — the `backendEmailService` configuration
    (`isConfigured` is computed from it);
  * `transport k` — outcome of the `k`-th transport send call;
  * `updateLeadFail k` — `some e` when the `k`-th `dataService.updateLead`
    call throws an error stringifying to `e`, `none` when it succeeds;
  * `callback` — `some f` when a progress callback was supplied, where
    `f progress message = some e` means that invocation throws `e`;
  * `showDate t` — `new Date(t).toLocaleDateString()`. -/
structure Env where
  emailConfig : Option EmailConfig
  transport : Nat → SendOutcome
  updateLeadFail : Nat → Option String
  callback : Option (ℚ → String → Option String)
  showDate : Nat → String

/-- The mutable world the workflow service runs in: the lead repository's
list (newest-first, per spec §6), the service's in-memory `executions`
and `followUpTasks` arrays, the millisecond clock, and the positions of
the two collaborator-call oracles. -/
structure SysState where
  leads : List Lead
  executions : List WorkflowExecution
  followUpTasks : List FollowUpTask
  now : Nat
  transportK : Nat
  updateLeadK : Nat

/-! ### Lead repository collaborator -/

/-- Modelled from the spec: the lead repository collaborator
(`src/services/dataService.ts` is not among the provided sources; spec §6
gives `get(id) -> Lead | absent` over `loadData().leads`).  This is
`WorkflowService.getLeadById`: `data.leads.find(l => l.id === leadId) || null`. -/
def getLeadById (leads : List Lead) (leadId : String) : Option Lead :=
  leads.find? fun lead => lead.id == leadId

/-- Modelled from the spec: the lead repository collaborator's
`update(id, partialFields)` (spec §6) as used by the executor, which only
ever passes `{ status: newStatus }`: rewrite the status of every lead with
the given id. -/
def updateLeadStatusField (leads : List Lead) (leadId newStatus : String) :
    List Lead :=
  leads.map fun lead =>
    if lead.id == leadId then { lead with status := newStatus } else lead

/-! ### Action handlers (first `WorkflowService` variant) -/

/-- `getEmailTemplate` (first variant): the fixed welcome template with
`{{name}}` / `{{email}}` / `{{date}}` placeholders. -/
def emailTemplateSubject : String :=
  "Welcome to Piazza CRM, \x7b\x7bname\x7d\x7d!"

/-- Body of the first-variant welcome template. -/
def emailTemplateBody : String :=
  "Hi \x7b\x7bname\x7d\x7d,\n\nThank you for reaching out to us! We're excited to connect and help you with your needs.\n\nA member of our team will contact you soon to discuss your requirements and next steps.\n\nIf you have any questions, feel free to reply to this email.\n\nBest regards,\nPiazza CRM Team"

/-- The rendered subject of `sendEmail`:
`emailTemplate.subject.replace("{{name}}", lead.name)`. -/
def renderSubject (lead : Lead) : String :=
  jsReplace emailTemplateSubject "\x7b\x7bname\x7d\x7d" lead.name

/-- The rendered body of `sendEmail`: `{{name}}`, `{{email}}`, `{{date}}`
substituted in turn (JS `replace` rewrites the first occurrence). -/
def renderBody (env : Env) (st : SysState) (lead : Lead) : String :=
  jsReplace
    (jsReplace
      (jsReplace emailTemplateBody "\x7b\x7bname\x7d\x7d" lead.name)
      "\x7b\x7bemail\x7d\x7d" lead.email)
    "\x7b\x7bdate\x7d\x7d" (env.showDate st.now)

/-- Outcome of one handler: the updated state, the mutated result record,
and `some e` when an exception escaped the handler (to be caught by
`executeAction`). -/
abbrev HandlerOut := SysState × WorkflowResult × Option String

/-- `sendEmail` (first variant).  Configured transport: a `try` block
sends through the transport; on `true` the result records a sent email
and the lead is set to `contacted`; on `false` the result is marked
`failed`; on a throw anywhere inside the `try` (transport rejection or a
throwing `updateLead`) the catch rewrites the result to a simulated
delivery carrying the error — the result keeps its default `success`
status.  Unconfigured transport: the result records a simulated delivery
and the lead is set to `contacted`; here `updateLead` runs outside any
`try`, so its exception escapes to `executeAction`. -/
def sendEmailH (env : Env) (st : SysState) (lead : Lead)
    (r : WorkflowResult) : HandlerOut :=
  let subject := renderSubject lead
  let body := renderBody env st lead
  if isConfigured env.emailConfig then
    let k := st.transportK
    let st := { st with transportK := k + 1 }
    match env.transport k with
    | .accepted =>
      let r := { r with
        message := "📧 Email sent successfully: \"" ++ subject ++ "\" → " ++ lead.email,
        data := some (.emailData subject body lead.email (some "sent") none) }
      let ku := st.updateLeadK
      let st := { st with updateLeadK := ku + 1 }
      match env.updateLeadFail ku with
      | none =>
        ({ st with leads := updateLeadStatusField st.leads lead.id "contacted" },
         r, none)
      | some e =>
        (st,
         { r with
            message := "📧 Email simulated (sending failed): \"" ++ subject ++ "\" → " ++ lead.email,
            data := some (.emailData subject body lead.email (some "simulated") (some e)) },
         none)
    | .rejected =>
      (st,
       { r with
          status := .failed,
          message := "❌ Failed to send email: \"" ++ subject ++ "\" → " ++ lead.email,
          data := some (.emailData subject body lead.email (some "failed") none) },
       none)
    | .thrown e =>
      (st,
       { r with
          message := "📧 Email simulated (sending failed): \"" ++ subject ++ "\" → " ++ lead.email,
          data := some (.emailData subject body lead.email (some "simulated") (some e)) },
       none)
  else
    let r := { r with
      message := "📧 Email simulated: \"" ++ subject ++ "\" → " ++ lead.email,
      data := some (.emailData subject body lead.email (some "simulated") none) }
    let ku := st.updateLeadK
    let st := { st with updateLeadK := ku + 1 }
    match env.updateLeadFail ku with
    | none =>
      ({ st with leads := updateLeadStatusField st.leads lead.id "contacted" },
       r, none)
    | some e => (st, r, some e)

/-- `updateLeadStatus`: unconditionally set the lead's status to
`"contacted"` via `updateLead` and record old/new status; a throwing
`updateLead` escapes to `executeAction`'s catch. -/
def updateLeadStatusH (env : Env) (st : SysState) (lead : Lead)
    (r : WorkflowResult) : HandlerOut :=
  let ku := st.updateLeadK
  let st := { st with updateLeadK := ku + 1 }
  match env.updateLeadFail ku with
  | some e => (st, r, some e)
  | none =>
    ({ st with leads := updateLeadStatusField st.leads lead.id "contacted" },
     { r with
        message := "🔄 Status updated: " ++ lead.name ++ " → CONTACTED",
        data := some (.statusData lead.status "contacted") },
     none)

/-- `createTask`: synthesize a follow-up `WorkflowTask` due in one day
with priority `medium`; the task lives only in the result record. -/
def createTaskH (env : Env) (st : SysState) (lead : Lead)
    (r : WorkflowResult) : HandlerOut :=
  let task : WorkflowTask := {
    id := "task_" ++ toString st.now,
    title := "Follow up with " ++ lead.name,
    description := "Contact " ++ lead.name ++ " regarding their inquiry",
    leadId := lead.id,
    dueDate := st.now + 24 * 60 * 60 * 1000,
    status := "pending",
    priority := "medium",
    createdAt := st.now }
  (st,
   { r with
      message := "📋 Task created: \"" ++ task.title ++ "\" (Due: " ++ env.showDate task.dueDate ++ ")",
      data := some (.taskData task) },
   none)

/-- `executeAction`: build the default-`success` result, dispatch on the
action type, and catch any exception escaping the handler by downgrading
the result to `failed` with message `Failed: <error>`.  Exactly one
result is produced; nothing is retried. -/
def executeAction (env : Env) (st : SysState) (action : WorkflowAction)
    (lead : Lead) : SysState × WorkflowResult :=
  let r0 : WorkflowResult := {
    actionId := action.id,
    actionType := action.type.toStr,
    actionLabel := action.label,
    status := .success,
    message := "",
    timestamp := st.now,
    data := none }
  let out :=
    match action.type with
    | .send_email => sendEmailH env st lead r0
    | .update_status => updateLeadStatusH env st lead r0
    | .create_task => createTaskH env st lead r0
  match out with
  | (st', r, none) => (st', r)
  | (st', r, some e) =>
    (st', { r with status := .failed, message := "Failed: " ++ e })

/-! ### Progress bookkeeping and the execution loop

The in-flight execution object is aliased: `this.executions` holds a
reference to it, direct field writes (`execution.status = ...`,
`execution.results.push(...)`) always hit it, while `updateProgress`
locates an execution by `this.executions.find(e => e.id === executionId)`
— the *first* execution with that id.  The model therefore keeps the
in-flight execution (`cur`) apart from the previously recorded ones
(`prior`); the JS array is `prior ++ [cur]`, so a `find` hit lands on a
`prior` entry exactly when one shares `cur`'s id, and on `cur` otherwise. -/

/-- Set the `progress` of the first execution in the list carrying the
given id; `none` when no execution matches. -/
def updateFirstProgress (eid : String) (p : ℚ) :
    List WorkflowExecution → Option (List WorkflowExecution)
  | [] => none
  | ex :: rest =>
    if ex.id == eid then some ({ ex with progress := p } :: rest)
    else
      match updateFirstProgress eid p rest with
      | some rest' => some (ex :: rest')
      | none => none

/-- `updateProgress(execution.id, progress, message)` during a run whose
callback (when supplied) is registered under `cur.id`: invoke the
callback first — if it throws, the exception propagates and the progress
write never happens — then write `progress` into the first execution in
`prior ++ [cur]` whose id equals `cur.id`. -/
def updateProgressM (env : Env) (prior : List WorkflowExecution)
    (cur : WorkflowExecution) (p : ℚ) (msg : String) :
    List WorkflowExecution × WorkflowExecution × Option String :=
  let thrown : Option String :=
    match env.callback with
    | some f => f p msg
    | none => none
  match thrown with
  | some e => (prior, cur, some e)
  | none =>
    match updateFirstProgress cur.id p prior with
    | some prior' => (prior', cur, none)
    | none => (prior, { cur with progress := p }, none)

/-- The synthetic result appended by the executor's catch block. -/
def errorResult (e : String) (t : Nat) : WorkflowResult :=
  { actionId := "error",
    actionType := "error",
    actionLabel := "Workflow Error",
    status := .failed,
    message := "❌ Error: " ++ e,
    timestamp := t,
    data := none }

/-- The `for` loop of `executeWorkflowForLead`: for the `i`-th action of
`n`, report progress `(i+1)/n*100` with an `Executing: <label>` message,
dispatch the action, append its result, and wait the fixed 1500 ms
settling delay.  Returns the state, the in-flight execution, and `some e`
when an exception (only the callback can throw here) escaped the loop. -/
def runLoop (env : Env) (lead : Lead) (n : Nat) :
    SysState → WorkflowExecution → Nat → List WorkflowAction →
    SysState × WorkflowExecution × Option String
  | st, cur, _, [] => (st, cur, none)
  | st, cur, i, action :: rest =>
    let p : ℚ := ((i + 1 : ℚ) / (n : ℚ)) * 100
    let (execs', cur', err) :=
      updateProgressM env st.executions cur p ("Executing: " ++ action.label)
    let st := { st with executions := execs' }
    match err with
    | some e => (st, cur', some e)
    | none =>
      let (st', r) := executeAction env st action lead
      let cur'' := { cur' with results := cur'.results ++ [r] }
      runLoop env lead n { st' with now := st'.now + 1500 } cur'' (i + 1) rest

/-- The single catch block of `executeWorkflowForLead`: mark the
execution `failed`, stamp `endTime`, append the synthetic error result,
and report `Workflow failed: <error>` at the execution's current
progress; if the callback throws again in that report, the new exception
escapes `executeWorkflowForLead` itself (after `finally`). -/
def failCatch (env : Env) (st : SysState) (cur : WorkflowExecution)
    (e : String) : SysState × WorkflowExecution × Option String :=
  let cur := { cur with
    status := ExecStatus.failed,
    endTime := some st.now,
    results := cur.results ++ [errorResult e st.now] }
  let (execs', cur', err) :=
    updateProgressM env st.executions cur cur.progress ("Workflow failed: " ++ e)
  ({ st with executions := execs' }, cur', err)

/-- The fresh `WorkflowExecution` object built at the top of
`executeWorkflowForLead` (`id` from `Date.now()`, `status: "running"`,
`progress: 0`, empty results). -/
def startExecution (st : SysState) (leadId : String)
    (actions : List WorkflowAction) (leadData : Lead) : WorkflowExecution :=
  { id := "exec_" ++ toString st.now,
    leadId := leadId,
    leadName := leadData.name,
    actions := actions,
    status := .running,
    startTime := st.now,
    endTime := none,
    results := [],
    progress := 0 }

/-- Tail of the catch block: on a second callback throw the new exception
escapes `executeWorkflowForLead` (the `finally` only unregisters the
callback); either way the execution object stays in the history. -/
def finishErr (env : Env) (st : SysState) (cur : WorkflowExecution)
    (e : String) : SysState × Except String WorkflowExecution :=
  match failCatch env st cur e with
  | (st4, cur5, none) =>
    ({ st4 with executions := st4.executions ++ [cur5] }, .ok cur5)
  | (st4, cur5, some e2) =>
    ({ st4 with executions := st4.executions ++ [cur5] }, .error e2)

/-- The field writes of the normal-completion block:
`status = "completed"`, `endTime = new Date()`, `progress = 100`. -/
def completedMark (st2 : SysState) (cur2 : WorkflowExecution) :
    WorkflowExecution :=
  { cur2 with
    status := ExecStatus.completed,
    endTime := some st2.now,
    progress := (100 : ℚ) }

/-- Normal-completion tail of `executeWorkflowForLead`: set
`completed`/`endTime`/`progress = 100`, report the final progress, and
let a throwing completion report fall into the catch block. -/
def finishOk (env : Env) (st2 : SysState) (cur2 : WorkflowExecution) :
    SysState × Except String WorkflowExecution :=
  match updateProgressM env st2.executions (completedMark st2 cur2) 100
      "Workflow completed successfully" with
  | (execs3, cur4, none) =>
    ({ st2 with executions := execs3 ++ [cur4] }, .ok cur4)
  | (execs3, cur4, some e) =>
    finishErr env { st2 with executions := execs3 } cur4 e

/-- `executeWorkflowForLead(leadId, actions, progressCallback?)`.

Resolve the lead (throwing `Lead <id> not found` before anything is
created when it is absent); create and register the `running` execution;
report the starting message (outside the `try` — a throwing callback here
escapes directly, leaving the execution `running` in the history); run
the action loop; on normal completion set `completed`/`endTime`/`progress
= 100` and report completion; any exception from the loop or from the
completion report lands in the catch block.  The function returns the
mutated state paired with either the execution object or the escaped
error. -/
def executeWorkflowForLead (env : Env) (st : SysState) (leadId : String)
    (actions : List WorkflowAction) :
    SysState × Except String WorkflowExecution :=
  match getLeadById st.leads leadId with
  | none => (st, .error ("Lead " ++ leadId ++ " not found"))
  | some leadData =>
    let cur0 := startExecution st leadId actions leadData
    match updateProgressM env st.executions cur0 0
        ("Starting workflow for " ++ leadData.name) with
    | (execs1, cur1, some e) =>
      ({ st with executions := execs1 ++ [cur1] }, .error e)
    | (execs1, cur1, none) =>
      match runLoop env leadData actions.length
          { st with executions := execs1 } cur1 0 actions with
      | (st2, cur2, none) => finishOk env st2 cur2
      | (st2, cur2, some e) => finishErr env st2 cur2 e

/-- `getExecutionHistory()`: a reversed copy of the in-memory log
(most-recent-first). -/
def getExecutionHistory (st : SysState) : List WorkflowExecution :=
  st.executions.reverse

/-! ### Action extraction (`extractActionsFromWorkflow`, both variants) -/

/-- `WorkflowNode` — the shape `getSavedWorkflow` reads back
(`{id, data: {label}}`); `data` is flattened to the label. -/
structure WorkflowNode where
  id : String
  label : String
deriving Repr, DecidableEq

/-- `SavedWorkflow` (`{nodes, edges}`; edges are opaque to extraction and
modelled as source/target pairs). -/
structure SavedWorkflow where
  nodes : List WorkflowNode
  edges : List (String × String)
deriving Repr, DecidableEq

/-- The trigger filter of both variants:
`node.id !== "1" && !node.data.label.includes("Lead Created")`. -/
def isActionNode (node : WorkflowNode) : Bool :=
  node.id != "1" && !(jsIncludes node.label "Lead Created")

/-- The classification cascade shared by both variants: first matching
substring wins, unmatched labels yield nothing. -/
def classifyNode (node : WorkflowNode) : Option WorkflowAction :=
  if jsIncludes node.label "Send Email" then
    some { id := node.id, type := .send_email, label := "Send Welcome Email" }
  else if jsIncludes node.label "Update Status" then
    some { id := node.id, type := .update_status, label := "Update Lead Status" }
  else if jsIncludes node.label "Create Task" then
    some { id := node.id, type := .create_task, label := "Create Follow-up Task" }
  else
    none

/-- `extractActionsFromWorkflow` — first `WorkflowService` variant
(`llmService.ts` around lines 701-746): filter out trigger nodes, then
push one action per node whose label matches `"Send Email"`,
`"Update Status"` or `"Create Task"` (in that order of checks); nodes
matching none are dropped with only a log line. -/
def extractActionsFromWorkflow (workflow : SavedWorkflow) :
    List WorkflowAction :=
  (workflow.nodes.filter isActionNode).filterMap classifyNode

/-- `extractActionsFromWorkflow` — second `WorkflowService` variant
(`llmService.ts` around lines 1337-1371).  The source differs from the
first variant only in `console.log` calls, so its embedding repeats the
same filter and the same classification cascade verbatim. -/
def extractActionsFromWorkflow2 (workflow : SavedWorkflow) :
    List WorkflowAction :=
  (workflow.nodes.filter fun node =>
      node.id != "1" && !(jsIncludes node.label "Lead Created")).filterMap
    fun node =>
      if jsIncludes node.label "Send Email" then
        some { id := node.id, type := .send_email, label := "Send Welcome Email" }
      else if jsIncludes node.label "Update Status" then
        some { id := node.id, type := .update_status, label := "Update Lead Status" }
      else if jsIncludes node.label "Create Task" then
        some { id := node.id, type := .create_task, label := "Create Follow-up Task" }
      else
        none

/-! ### Workflow metrics (`getWorkflowMetrics`) -/

/-- The record returned by `getWorkflowMetrics()`. `successRate` is the
JS float `(completed / total) * 100` as an exact rational;
`avgExecutionTime` is `Math.round(avgMs / 1000)` (JS rounds half toward
positive infinity, as `round` on `ℚ` does). -/
structure WorkflowMetrics where
  totalExecutions : Nat
  completedExecutions : Nat
  failedExecutions : Nat
  successRate : ℚ
  avgExecutionTime : ℤ
  emailsSent : Nat
  tasksCreated : Nat
  followUpsScheduled : Nat
deriving Repr, DecidableEq

/-- Duration summand of the `reduce` in `getWorkflowMetrics`:
`endTime ? endTime - startTime : 0` in milliseconds.  (JS date
subtraction can be negative only if `endTime < startTime`; executions the
service writes always satisfy `startTime ≤ endTime`, and `Nat`
subtraction truncates at zero exactly like the reachable cases.) -/
def execDuration (e : WorkflowExecution) : Nat :=
  match e.endTime with
  | some t => t - e.startTime
  | none => 0

/-- `getWorkflowMetrics()`: filter the log by terminal state, average the
completed durations, and scan every result of every execution for the
per-action tallies.  Purely a function of the current state. -/
def getWorkflowMetrics (st : SysState) : WorkflowMetrics :=
  let completedExecutions := st.executions.filter fun e => e.status == .completed
  let failedExecutions := st.executions.filter fun e => e.status == .failed
  let avgExecutionTime : ℚ :=
    if completedExecutions.length > 0 then
      (completedExecutions.foldl (fun sum e => sum + (execDuration e : ℚ)) 0) /
        (completedExecutions.length : ℚ)
    else 0
  { totalExecutions := st.executions.length,
    completedExecutions := completedExecutions.length,
    failedExecutions := failedExecutions.length,
    successRate :=
      if st.executions.length > 0 then
        ((completedExecutions.length : ℚ) / (st.executions.length : ℚ)) * 100
      else 0,
    avgExecutionTime := round (avgExecutionTime / 1000),
    emailsSent :=
      st.executions.foldl
        (fun sum e =>
          sum + (e.results.filter fun r => r.actionType == "send_email").length)
        0,
    tasksCreated :=
      st.executions.foldl
        (fun sum e =>
          sum + (e.results.filter fun r => r.actionType == "create_task").length)
        0,
    followUpsScheduled := st.followUpTasks.length }

/-! ### Workflow definition store
(`WorkflowDesigner.saveWorkflow` / `loadWorkflow` over the
`"crm-workflow"` localStorage key) -/

/-- A canvas node as the designer serializes it: id, `data.label`, and
its position (styling fields such as `type`/`className` ride along in the
JSON blob and are irrelevant to the store contract). -/
structure DesignerNode where
  id : String
  label : String
  posX : Int
  posY : Int
deriving Repr, DecidableEq

/-- A canvas edge: id plus source/target node ids. -/
structure DesignerEdge where
  id : String
  source : String
  target : String
deriving Repr, DecidableEq

/-- The designer's `{ nodes, edges }` object that `saveWorkflow`
stringifies. -/
structure DesignerWorkflow where
  nodes : List DesignerNode
  edges : List DesignerEdge
deriving Repr, DecidableEq

/-- JSON values (the image of `JSON.stringify`/`JSON.parse` on the data
the store handles). -/
inductive Json where
  | str (s : String)
  | num (n : Int)
  | arr (elems : List Json)
  | obj (fields : List (String × Json))

/-- First field of a JSON object with the given key (JS property lookup). -/
def jsonGet (key : String) : Json → Option Json
  | .obj fields =>
    match fields.find? (fun f => f.1 == key) with
    | some f => some f.2
    | none => none
  | _ => none

/-- String content of a JSON value, when it is a string. -/
def jsonStr : Json → Option String
  | .str s => some s
  | _ => none

/-- Integer content of a JSON value, when it is a number. -/
def jsonNum : Json → Option Int
  | .num n => some n
  | _ => none

/-- Serialize one designer node as
`{id, data: {label}, position: {x, y}}`. -/
def encodeNode (n : DesignerNode) : Json :=
  .obj [("id", .str n.id),
        ("data", .obj [("label", .str n.label)]),
        ("position", .obj [("x", .num n.posX), ("y", .num n.posY)])]

/-- Serialize one designer edge as `{id, source, target}`. -/
def encodeEdge (e : DesignerEdge) : Json :=
  .obj [("id", .str e.id), ("source", .str e.source), ("target", .str e.target)]

/-- `JSON.stringify({ nodes, edges })` of `saveWorkflow`, as the JSON
value it denotes. -/
def encodeWorkflow (w : DesignerWorkflow) : Json :=
  .obj [("nodes", .arr (w.nodes.map encodeNode)),
        ("edges", .arr (w.edges.map encodeEdge))]

/-- Read one designer node back from its JSON form. -/
def decodeNode (j : Json) : Option DesignerNode := do
  let id ← jsonStr (← jsonGet "id" j)
  let label ← jsonStr (← jsonGet "label" (← jsonGet "data" j))
  let pos ← jsonGet "position" j
  let x ← jsonNum (← jsonGet "x" pos)
  let y ← jsonNum (← jsonGet "y" pos)
  pure { id := id, label := label, posX := x, posY := y }

/-- Read one designer edge back from its JSON form. -/
def decodeEdge (j : Json) : Option DesignerEdge := do
  let id ← jsonStr (← jsonGet "id" j)
  let source ← jsonStr (← jsonGet "source" j)
  let target ← jsonStr (← jsonGet "target" j)
  pure { id := id, source := source, target := target }

/-- Traverse a list of decoders, failing when any element fails. -/
def decodeList {α : Type} (dec : Json → Option α) :
    List Json → Option (List α)
  | [] => some []
  | j :: rest => do
    let a ← dec j
    let as ← decodeList dec rest
    pure (a :: as)

/-- `JSON.parse` of a stored workflow blob back into the designer's
`{ nodes, edges }` shape. -/
def decodeWorkflow (j : Json) : Option DesignerWorkflow := do
  let nodesJ ← jsonGet "nodes" j
  let edgesJ ← jsonGet "edges" j
  match nodesJ, edgesJ with
  | .arr ns, .arr es => do
    let nodes ← decodeList decodeNode ns
    let edges ← decodeList decodeEdge es
    pure { nodes := nodes, edges := edges }
  | _, _ => none

/-- The browser localStorage relevant to the store: the value under the
`"crm-workflow"` key, holding the parsed form of the stored JSON string. -/
abbrev WorkflowStore := Option Json

/-- `saveWorkflow`:
`localStorage.setItem("crm-workflow", JSON.stringify({nodes, edges}))` —
overwrite semantics, the saved graph becomes the sole current
definition. -/
def saveWorkflow (_store : WorkflowStore) (w : DesignerWorkflow) :
    WorkflowStore :=
  some (encodeWorkflow w)

/-- `loadWorkflow` (/ `getSavedWorkflow`):
read `"crm-workflow"` and `JSON.parse` it; absence (or a blob that does
not decode to the expected shape) yields nothing. -/
def loadWorkflow (store : WorkflowStore) : Option DesignerWorkflow :=
  match store with
  | none => none
  | some j => decodeWorkflow j

/-! ### The caller-level guard (`WorkflowDesigner.executeWorkflow`) -/

/-- Outcome of `WorkflowDesigner.executeWorkflow`: the three early
returns each fire a destructive toast and leave the service untouched;
otherwise the engine runs for the newest lead (`data.leads[0]`). -/
inductive DesignerRun where
  | aborted (toastTitle : String) (st : SysState)
  | ran (st : SysState) (res : Except String WorkflowExecution)

/-- `WorkflowDesigner.executeWorkflow`: abort with `No Leads Found` when
the repository is empty, with `No Workflow Found` when nothing is saved,
and with `❌ No Actions Found` when extraction yields an empty action
list — only then call `executeWorkflowForLead` on the newest lead. -/
def designerExecuteWorkflow (env : Env) (st : SysState)
    (saved : Option SavedWorkflow) : DesignerRun :=
  match st.leads with
  | [] => .aborted "No Leads Found" st
  | latestLead :: _ =>
    match saved with
    | none => .aborted "No Workflow Found" st
    | some workflow =>
      let actions := extractActionsFromWorkflow workflow
      if actions.isEmpty then .aborted "❌ No Actions Found" st
      else
        let (st', res) := executeWorkflowForLead env st latestLead.id actions
        .ran st' res

/-! ### Concrete fixtures (used by witnesses and counterexamples) -/

/-- The lead of the spec's §8 scenario. -/
def annLead : Lead :=
  { id := "1", name := "Ann", email := "a@x.com", phone := "", status := "new",
    source := "web", createdAt := 0 }

/-- A benign environment: transport unconfigured, every collaborator call
succeeds, no progress callback. -/
def envPlain : Env :=
  { emailConfig := none,
    transport := fun _ => SendOutcome.accepted,
    updateLeadFail := fun _ => none,
    callback := none,
    showDate := fun _ => "1/1/2026" }

/-- A fresh service state holding just the scenario lead. -/
def stAnn : SysState :=
  { leads := [annLead], executions := [], followUpTasks := [], now := 1000,
    transportK := 0, updateLeadK := 0 }

/-- A saved email configuration (truthy fields, so `isConfigured`). -/
def cfgSmtp : EmailConfig := { email := "me@x.com", password := "pw", name := "Me" }

/-- Concrete actions of each kind. -/
def sendAct : WorkflowAction :=
  { id := "2", type := ActionType.send_email, label := "Send Welcome Email" }

/-- Concrete `update_status` action. -/
def updAct : WorkflowAction :=
  { id := "3", type := ActionType.update_status, label := "Update Lead Status" }

/-- Concrete `create_task` action. -/
def taskAct : WorkflowAction :=
  { id := "4", type := ActionType.create_task, label := "Create Follow-up Task" }

/-- Status of the lead with the given id in a state. -/
def leadStatus (st : SysState) (leadId : String) : Option String :=
  (getLeadById st.leads leadId).map fun lead => lead.status

/-! ### Helper lemmas -/

/-- A progress callback that never throws (or no callback at all). -/
def CallbackTotal (env : Env) : Prop :=
  ∀ f, env.callback = some f → ∀ p m, f p m = none

theorem callbackTotal_of_none {env : Env} (h : env.callback = none) :
    CallbackTotal env := by
  intro f hf
  rw [h] at hf
  cases hf

theorem updateProgressM_err_of_total {env : Env} (hcb : CallbackTotal env)
    (prior : List WorkflowExecution) (cur : WorkflowExecution) (p : ℚ)
    (msg : String) : (updateProgressM env prior cur p msg).2.2 = none := by
  unfold updateProgressM
  cases hc : env.callback with
  | none =>
    simp only
    cases updateFirstProgress cur.id p prior <;> rfl
  | some f =>
    simp only [hcb f hc p msg]
    cases updateFirstProgress cur.id p prior <;> rfl

theorem updateProgressM_cur (env : Env) (prior : List WorkflowExecution)
    (cur : WorkflowExecution) (p : ℚ) (msg : String) :
    (updateProgressM env prior cur p msg).2.1 = cur ∨
      (updateProgressM env prior cur p msg).2.1 = { cur with progress := p } := by
  unfold updateProgressM
  cases hc : env.callback with
  | none =>
    cases hU : updateFirstProgress cur.id p prior with
    | none => right; simp [hU]
    | some prior' => left; simp [hU]
  | some f =>
    cases hf : f p msg with
    | none =>
      cases hU : updateFirstProgress cur.id p prior with
      | none => right; simp [hf, hU]
      | some prior' => left; simp [hf, hU]
    | some e => left; simp [hf]

theorem updateProgressM_results (env : Env) (prior : List WorkflowExecution)
    (cur : WorkflowExecution) (p : ℚ) (msg : String) :
    (updateProgressM env prior cur p msg).2.1.results = cur.results := by
  rcases updateProgressM_cur env prior cur p msg with h | h <;> rw [h]

theorem updateProgressM_status (env : Env) (prior : List WorkflowExecution)
    (cur : WorkflowExecution) (p : ℚ) (msg : String) :
    (updateProgressM env prior cur p msg).2.1.status = cur.status := by
  rcases updateProgressM_cur env prior cur p msg with h | h <;> rw [h]

/-- Under a non-throwing callback the loop never raises and appends
exactly one result per action. -/
theorem runLoop_total {env : Env} (hcb : CallbackTotal env) (lead : Lead)
    (n : Nat) :
    ∀ (acts : List WorkflowAction) (st : SysState) (cur : WorkflowExecution)
      (i : Nat),
      (runLoop env lead n st cur i acts).2.2 = none ∧
        (runLoop env lead n st cur i acts).2.1.results.length =
          cur.results.length + acts.length := by
  intro acts
  induction acts with
  | nil => intro st cur i; exact ⟨rfl, rfl⟩
  | cons action rest ih =>
    intro st cur i
    have herr := updateProgressM_err_of_total hcb st.executions cur
      (((i : ℚ) + 1) / (n : ℚ) * 100) ("Executing: " ++ action.label)
    have hres := updateProgressM_results env st.executions cur
      (((i : ℚ) + 1) / (n : ℚ) * 100) ("Executing: " ++ action.label)
    rcases hU : updateProgressM env st.executions cur
        (((i : ℚ) + 1) / (n : ℚ) * 100) ("Executing: " ++ action.label) with
      ⟨execs', cur', err⟩
    rw [hU] at herr hres
    simp only at herr hres
    subst herr
    rcases hA : executeAction env { st with executions := execs' } action lead
      with ⟨st', r⟩
    have step := ih { st' with now := st'.now + 1500 }
      { cur' with results := cur'.results ++ [r] } (i + 1)
    constructor
    · show (runLoop env lead n st cur i (action :: rest)).2.2 = none
      simp only [runLoop, hU, hA]
      exact step.1
    · show (runLoop env lead n st cur i (action :: rest)).2.1.results.length = _
      simp only [runLoop, hU, hA]
      rw [step.2]
      simp [hres]
      omega

theorem finishOk_spec {env : Env} (hcb : CallbackTotal env) (st2 : SysState)
    (cur2 : WorkflowExecution) :
    ∃ st' ex, finishOk env st2 cur2 = (st', Except.ok ex) ∧
      ex.status = ExecStatus.completed ∧ ex.results = cur2.results ∧
      ex.progress = 100 ∧ st'.leads = st2.leads := by
  have hcur := updateProgressM_cur env st2.executions (completedMark st2 cur2)
    100 "Workflow completed successfully"
  have herr := updateProgressM_err_of_total hcb st2.executions
    (completedMark st2 cur2) 100 "Workflow completed successfully"
  rcases hU : updateProgressM env st2.executions (completedMark st2 cur2) 100
      "Workflow completed successfully" with ⟨execs3, cur4, err3⟩
  rw [hU] at herr hcur
  simp only at herr hcur
  subst herr
  refine ⟨{ st2 with executions := execs3 ++ [cur4] }, cur4, ?_, ?_, ?_, ?_, rfl⟩
  · simp only [finishOk, hU]
  · rcases hcur with h | h <;> simp [h, completedMark]
  · rcases hcur with h | h <;> simp [h, completedMark]
  · rcases hcur with h | h <;> simp [h, completedMark]

/-- C1 counterexample environment: a progress callback that throws
exactly when invoked with the final `Workflow completed successfully`
message. -/
def envCbBoom : Env :=
  { envPlain with
    callback := some fun _ m =>
      if m == "Workflow completed successfully" then some "cb boom" else none }

/-- C1 counterexample: with a progress callback that throws on the final
completion report, `executeWorkflowForLead` first marks the execution
`completed` with `progress = 100`, then the escaping callback exception
re-marks it `failed` — producing an execution with `progress == 100` and
`status == failed`, so `progress == 100` does not imply
`status == completed`. -/
theorem progress_hundred_but_failed_cex :
    ((executeWorkflowForLead envCbBoom stAnn "1" [taskAct]).2.toOption.map
        fun ex => (ex.status, ex.progress)) =
      some (ExecStatus.failed, (100 : ℚ)) ∧
    ExecStatus.failed ≠ ExecStatus.completed := by
  constructor
  · decide
  · decide

/-- Under a non-throwing callback, a run with a resolvable lead always
reaches the `completed` path with one result per action and progress
100.  (Shared skeleton behind the run-level claims.) -/
theorem run_total_spec (env : Env) (st : SysState) (leadId : String)
    (actions : List WorkflowAction) (lead : Lead)
    (hcb : CallbackTotal env)
    (hlead : getLeadById st.leads leadId = some lead) :
    ∃ st' ex,
      executeWorkflowForLead env st leadId actions = (st', Except.ok ex) ∧
      ex.status = ExecStatus.completed ∧
      ex.results.length = actions.length ∧
      ex.progress = 100 := by
  have herr1 := updateProgressM_err_of_total hcb st.executions
    (startExecution st leadId actions lead) 0
    ("Starting workflow for " ++ lead.name)
  have hres1 := updateProgressM_results env st.executions
    (startExecution st leadId actions lead) 0
    ("Starting workflow for " ++ lead.name)
  rcases hU1 : updateProgressM env st.executions
      (startExecution st leadId actions lead) 0
      ("Starting workflow for " ++ lead.name) with ⟨execs1, cur1, err1⟩
  rw [hU1] at herr1 hres1
  simp only at herr1 hres1
  subst herr1
  have hloop := runLoop_total hcb lead actions.length actions
    { st with executions := execs1 } cur1 0
  rcases hL : runLoop env lead actions.length
      { st with executions := execs1 } cur1 0 actions with ⟨st2, cur2, errL⟩
  rw [hL] at hloop
  simp only at hloop
  obtain ⟨herrL, hlen⟩ := hloop
  subst herrL
  obtain ⟨st', ex, hfin, hstat, hres, hprog, _⟩ := finishOk_spec hcb st2 cur2
  refine ⟨st', ex, ?_, hstat, ?_, hprog⟩
  · simp only [executeWorkflowForLead, hlead, hU1, hL]
    exact hfin
  · rw [hres, hlen, hres1]
    simp [startExecution]

/-- C1 (amended): for every resolvable lead and non-empty action list,
provided the progress callback never throws, `executeWorkflowForLead`
returns a `completed` execution with exactly one result per action and
`progress = 100` (so `progress == 100 ↔ status == completed` holds for
the execution it produces); without that proviso a callback throwing on
the final completion report yields a `failed` execution whose progress is
already 100. -/
theorem workflow_run_completed (env : Env) (st : SysState) (leadId : String)
    (actions : List WorkflowAction) (lead : Lead)
    (hcb : CallbackTotal env)
    (hlead : getLeadById st.leads leadId = some lead)
    (_hne : actions ≠ []) :
    ∃ st' ex,
      executeWorkflowForLead env st leadId actions = (st', Except.ok ex) ∧
      ex.status = ExecStatus.completed ∧
      ex.results.length = actions.length ∧
      ex.progress = 100 ∧
      (ex.progress = 100 ↔ ex.status = ExecStatus.completed) := by
  obtain ⟨st', ex, hrun, hstat, hlen, hprog⟩ :=
    run_total_spec env st leadId actions lead hcb hlead
  exact ⟨st', ex, hrun, hstat, hlen, hprog, by simp [hprog, hstat]⟩

/-- C1 witness: the amended theorem applied to the fixture lead, one
`create_task` action, and the benign environment. -/
theorem workflow_run_completed_witness :
    ∃ st' ex,
      executeWorkflowForLead envPlain stAnn "1" [taskAct] = (st', Except.ok ex) ∧
      ex.status = ExecStatus.completed ∧
      ex.results.length = 1 ∧
      ex.progress = 100 ∧
      (ex.progress = 100 ↔ ex.status = ExecStatus.completed) :=
  workflow_run_completed envPlain stAnn "1" [taskAct] annLead
    (callbackTotal_of_none rfl) (by decide) (by decide)

/-- C2: an unresolvable lead id makes `executeWorkflowForLead` fail
immediately with the `Lead <id> not found` error, with the state — and
hence `getExecutionHistory` — unchanged: no `WorkflowExecution` is
created or recorded. -/
theorem missing_lead_rejects (env : Env) (st : SysState) (leadId : String)
    (actions : List WorkflowAction)
    (h : getLeadById st.leads leadId = none) :
    executeWorkflowForLead env st leadId actions =
      (st, Except.error ("Lead " ++ leadId ++ " not found")) ∧
    getExecutionHistory (executeWorkflowForLead env st leadId actions).1 =
      getExecutionHistory st := by
  have heq : executeWorkflowForLead env st leadId actions =
      (st, Except.error ("Lead " ++ leadId ++ " not found")) := by
    simp only [executeWorkflowForLead, h]
  exact ⟨heq, by rw [heq]⟩

/-- C2 witness: the spec's `missing-id` scenario on the fixture state. -/
theorem missing_lead_rejects_witness :
    executeWorkflowForLead envPlain stAnn "missing-id" [sendAct] =
      (stAnn, Except.error "Lead missing-id not found") ∧
    getExecutionHistory
        (executeWorkflowForLead envPlain stAnn "missing-id" [sendAct]).1 =
      getExecutionHistory stAnn :=
  missing_lead_rejects envPlain stAnn "missing-id" [sendAct] (by decide)

/-- C5 counterexample: called directly with an empty action list and a
resolvable lead, `executeWorkflowForLead` does NOT report a "no actions"
error — it creates, appends and completes an execution with zero
results, so the claim's "no WorkflowExecution is created or appended to
the history" fails at this input. -/
theorem empty_actions_still_executes_cex :
    (executeWorkflowForLead envPlain stAnn "1" []).1.executions.length = 1 ∧
    ((executeWorkflowForLead envPlain stAnn "1" []).2.toOption.map
        fun ex => (ex.status, ex.results.length, ex.progress)) =
      some (ExecStatus.completed, 0, (100 : ℚ)) := by
  exact ⟨by decide, by decide⟩

/-- C5 (amended): the "no actions" guard lives in the caller.  When the
actions extracted from the saved definition form an empty list,
`WorkflowDesigner.executeWorkflow` aborts with the `❌ No Actions Found`
toast, never invokes `executeWorkflowForLead`, and leaves the service
state untouched; `executeWorkflowForLead` itself has no empty-list
precondition and, called directly, records a completed zero-result
execution. -/
theorem designer_no_actions_guard (env : Env) (st : SysState)
    (wf : SavedWorkflow)
    (hleads : st.leads ≠ [])
    (hempty : extractActionsFromWorkflow wf = []) :
    designerExecuteWorkflow env st (some wf) =
      DesignerRun.aborted "❌ No Actions Found" st := by
  unfold designerExecuteWorkflow
  cases hl : st.leads with
  | nil => exact absurd hl hleads
  | cons latest rest => simp [hempty]

/-- C5 witness: the guard fires on a definition holding only the trigger
node. -/
theorem designer_no_actions_guard_witness :
    designerExecuteWorkflow envPlain stAnn
        (some { nodes := [{ id := "1", label := "📋 Lead Created" }],
                edges := [] }) =
      DesignerRun.aborted "❌ No Actions Found" stAnn :=
  designer_no_actions_guard envPlain stAnn
    { nodes := [{ id := "1", label := "📋 Lead Created" }], edges := [] }
    (by decide) (by decide)

theorem classifyNode_id {n : WorkflowNode} {a : WorkflowAction}
    (h : classifyNode n = some a) : a.id = n.id := by
  unfold classifyNode at h
  split at h
  · cases h; rfl
  · split at h
    · cases h; rfl
    · split at h
      · cases h; rfl
      · cases h

theorem length_filterMap_lt_of_none {α β : Type} (f : α → Option β) :
    ∀ (l : List α) (x : α), x ∈ l → f x = none →
      (l.filterMap f).length < l.length := by
  intro l
  induction l with
  | nil => intro x hx; cases hx
  | cons hd tl ih =>
    intro x hx hfx
    rcases List.mem_cons.mp hx with rfl | hx'
    · rw [List.filterMap_cons, hfx]
      simpa using Nat.lt_succ_of_le (List.length_filterMap_le f tl)
    · cases hf : f hd with
      | none =>
        rw [List.filterMap_cons, hf]
        simpa using Nat.lt_succ_of_le (List.length_filterMap_le f tl)
      | some b =>
        rw [List.filterMap_cons, hf]
        simpa using ih x hx' hfx

theorem map_id_filterMap_classify_sublist :
    ∀ l : List WorkflowNode,
      List.Sublist ((l.filterMap classifyNode).map fun a => a.id)
        (l.map fun n => n.id) := by
  intro l
  induction l with
  | nil => simp
  | cons hd tl ih =>
    cases hc : classifyNode hd with
    | none =>
      rw [List.filterMap_cons, hc, List.map_cons]
      exact ih.cons _
    | some a =>
      rw [List.filterMap_cons, hc, List.map_cons, List.map_cons,
        classifyNode_id hc]
      exact ih.cons₂ _

/-- C4: `extractActionsFromWorkflow` (i) never emits an action for the
trigger node — every output stems from a node with id other than `"1"`
whose label does not contain `"Lead Created"`; (ii) classifies each
remaining node by substring match on its label, in the source's check
order; (iii) silently drops unmatched nodes, so the output is never
longer than the non-trigger node list and is strictly shorter when an
unrecognized label is present; (iv) preserves node iteration order (the
emitted action ids form a sublist of the node ids); and (v) never
consults the edges. -/
theorem extract_actions_spec (w : SavedWorkflow) :
    (∀ a ∈ extractActionsFromWorkflow w, ∃ n, n ∈ w.nodes ∧ n.id = a.id ∧
        n.id ≠ "1" ∧ jsIncludes n.label "Lead Created" = false) ∧
    (∀ n ∈ w.nodes.filter isActionNode,
      (jsIncludes n.label "Send Email" = true →
        ({ id := n.id, type := ActionType.send_email,
           label := "Send Welcome Email" } : WorkflowAction) ∈
          extractActionsFromWorkflow w) ∧
      (jsIncludes n.label "Send Email" = false →
        jsIncludes n.label "Update Status" = true →
        ({ id := n.id, type := ActionType.update_status,
           label := "Update Lead Status" } : WorkflowAction) ∈
          extractActionsFromWorkflow w) ∧
      (jsIncludes n.label "Send Email" = false →
        jsIncludes n.label "Update Status" = false →
        jsIncludes n.label "Create Task" = true →
        ({ id := n.id, type := ActionType.create_task,
           label := "Create Follow-up Task" } : WorkflowAction) ∈
          extractActionsFromWorkflow w)) ∧
    (extractActionsFromWorkflow w).length ≤
      (w.nodes.filter isActionNode).length ∧
    ((∃ n, n ∈ w.nodes.filter isActionNode ∧ classifyNode n = none) →
      (extractActionsFromWorkflow w).length <
        (w.nodes.filter isActionNode).length) ∧
    List.Sublist ((extractActionsFromWorkflow w).map fun a => a.id)
      (w.nodes.map fun n => n.id) ∧
    (∀ edges', extractActionsFromWorkflow { nodes := w.nodes, edges := edges' } =
      extractActionsFromWorkflow w) := by
  refine ⟨?_, ?_, ?_, ?_, ?_, ?_⟩
  · intro a ha
    obtain ⟨n, hn, hcl⟩ := List.mem_filterMap.mp ha
    obtain ⟨hnodes, hact⟩ := List.mem_filter.mp hn
    refine ⟨n, hnodes, (classifyNode_id hcl).symm, ?_, ?_⟩
    · have := (Bool.and_eq_true _ _).mp hact
      simpa [bne] using this.1
    · have := (Bool.and_eq_true _ _).mp hact
      simpa using this.2
  · intro n hn
    refine ⟨?_, ?_, ?_⟩
    · intro hse
      exact List.mem_filterMap.mpr ⟨n, hn, by simp [classifyNode, hse]⟩
    · intro hse hus
      exact List.mem_filterMap.mpr ⟨n, hn, by simp [classifyNode, hse, hus]⟩
    · intro hse hus hct
      exact List.mem_filterMap.mpr ⟨n, hn, by simp [classifyNode, hse, hus, hct]⟩
  · exact List.length_filterMap_le _ _
  · rintro ⟨n, hn, hcl⟩
    exact length_filterMap_lt_of_none classifyNode _ n hn hcl
  · exact (map_id_filterMap_classify_sublist _).trans
      ((List.filter_sublist _).map _)
  · intro edges'
    rfl

/-- C4 witness: on a definition holding the trigger, one recognized node
and one unrecognized node, extraction drops the trigger and the
unrecognized node — the strict inequality of the theorem is realized. -/
theorem extract_actions_spec_witness :
    (extractActionsFromWorkflow
        { nodes := [{ id := "1", label := "📋 Lead Created" },
                    { id := "2", label := "📧 Send Email" },
                    { id := "5", label := "🎲 Roll Dice" }],
          edges := [] }).length <
      (({ nodes := [{ id := "1", label := "📋 Lead Created" },
                    { id := "2", label := "📧 Send Email" },
                    { id := "5", label := "🎲 Roll Dice" }],
          edges := [] } : SavedWorkflow).nodes.filter isActionNode).length :=
  (extract_actions_spec
      { nodes := [{ id := "1", label := "📋 Lead Created" },
                  { id := "2", label := "📧 Send Email" },
                  { id := "5", label := "🎲 Roll Dice" }],
        edges := [] }).2.2.2.1
    ⟨{ id := "5", label := "🎲 Roll Dice" }, by decide, by decide⟩

/-- C10: the two `WorkflowService` variants in the source are
extensionally equal at action extraction — for every saved workflow the
two `extractActionsFromWorkflow` bodies (which differ only in
`console.log` calls) return identical action lists, with the same ids,
kinds and labels in the same order. -/
theorem extract_variants_agree (w : SavedWorkflow) :
    extractActionsFromWorkflow w = extractActionsFromWorkflow2 w := rfl

theorem decodeNode_encodeNode (n : DesignerNode) :
    decodeNode (encodeNode n) = some n := rfl

theorem decodeEdge_encodeEdge (e : DesignerEdge) :
    decodeEdge (encodeEdge e) = some e := rfl

theorem decodeList_map {α : Type} (dec : Json → Option α) (enc : α → Json)
    (h : ∀ a, dec (enc a) = some a) :
    ∀ l : List α, decodeList dec (l.map enc) = some l := by
  intro l
  induction l with
  | nil => rfl
  | cons hd tl ih => simp [decodeList, h, ih]

theorem decodeWorkflow_encodeWorkflow (w : DesignerWorkflow) :
    decodeWorkflow (encodeWorkflow w) = some w := by
  unfold decodeWorkflow encodeWorkflow
  simp [jsonGet, decodeList_map decodeNode encodeNode decodeNode_encodeNode,
    decodeList_map decodeEdge encodeEdge decodeEdge_encodeEdge]

/-- C8: saving a definition and loading it back yields a definition with
the same node ids, the same node labels and the same edge source/target
pairs (in fact the identical designer graph). -/
theorem store_round_trip (store : WorkflowStore) (w : DesignerWorkflow) :
    ∃ w', loadWorkflow (saveWorkflow store w) = some w' ∧
      (w'.nodes.map fun n => n.id) = (w.nodes.map fun n => n.id) ∧
      (w'.nodes.map fun n => n.label) = (w.nodes.map fun n => n.label) ∧
      (w'.edges.map fun e => (e.source, e.target)) =
        (w.edges.map fun e => (e.source, e.target)) :=
  ⟨w, decodeWorkflow_encodeWorkflow w, rfl, rfl, rfl⟩

/-! ### Metrics lemmas and claims -/

theorem foldl_add_eq_sum {α M : Type} [AddCommMonoid M] (f : α → M) :
    ∀ (l : List α) (a : M),
      l.foldl (fun s x => s + f x) a = a + (l.map f).sum := by
  intro l
  induction l with
  | nil => intro a; simp
  | cons hd tl ih => intro a; simp [ih, add_assoc]

/-- Two completed-and-one-failed fixture executions for the metrics
counterexample.  One of two executions is completed, so the code reports
a `successRate` of 50 — the percentage, not the ratio 1/2. -/
def exDone : WorkflowExecution :=
  { id := "a", leadId := "1", leadName := "Ann", actions := [],
    status := .completed, startTime := 0, endTime := some 1500,
    results := [], progress := 100 }

/-- A failed fixture execution. -/
def exFail : WorkflowExecution :=
  { id := "b", leadId := "1", leadName := "Ann", actions := [],
    status := .failed, startTime := 0, endTime := some 3000,
    results := [], progress := 50 }

/-- Fixture state with one completed and one failed execution. -/
def stMetrics : SysState :=
  { stAnn with executions := [exDone, exFail] }

/-- Characterization of `getWorkflowMetrics` shared by the metrics
claims: each field as counts, percentage rate, rounded average seconds,
and per-kind result tallies. -/
theorem metrics_spec_aux (st : SysState) :
    (getWorkflowMetrics st).totalExecutions = st.executions.length ∧
    (getWorkflowMetrics st).completedExecutions =
      st.executions.countP (fun e => e.status == ExecStatus.completed) ∧
    (getWorkflowMetrics st).failedExecutions =
      st.executions.countP (fun e => e.status == ExecStatus.failed) ∧
    (getWorkflowMetrics st).successRate =
      (if st.executions.length = 0 then 0
       else ((st.executions.countP (fun e => e.status == ExecStatus.completed) : ℚ) * 100) /
        (st.executions.length : ℚ)) ∧
    (getWorkflowMetrics st).avgExecutionTime =
      round ((if (st.executions.filter fun e => e.status == ExecStatus.completed).length = 0
          then (0 : ℚ)
          else ((st.executions.filter fun e => e.status == ExecStatus.completed).map
              fun e => (execDuration e : ℚ)).sum /
            ((st.executions.filter fun e => e.status == ExecStatus.completed).length : ℚ)) /
        1000) ∧
    (getWorkflowMetrics st).emailsSent =
      (st.executions.map fun e =>
        (e.results.filter fun r => r.actionType == "send_email").length).sum ∧
    (getWorkflowMetrics st).tasksCreated =
      (st.executions.map fun e =>
        (e.results.filter fun r => r.actionType == "create_task").length).sum ∧
    (getWorkflowMetrics st).followUpsScheduled = st.followUpTasks.length := by
  refine ⟨rfl, ?_, ?_, ?_, ?_, ?_, ?_, rfl⟩
  · simp only [getWorkflowMetrics]
    exact (List.countP_eq_length_filter _ _).symm
  · simp only [getWorkflowMetrics]
    exact (List.countP_eq_length_filter _ _).symm
  · simp only [getWorkflowMetrics]
    rcases Nat.eq_zero_or_pos st.executions.length with h | h
    · simp [h]
    · rw [if_pos h, if_neg (by omega), List.countP_eq_length_filter,
        div_mul_eq_mul_div]
  · simp only [getWorkflowMetrics]
    rcases Nat.eq_zero_or_pos
        (st.executions.filter fun e => e.status == ExecStatus.completed).length with h | h
    · simp [h]
    · rw [if_pos h, if_neg (by omega), foldl_add_eq_sum, zero_add]
  · simp only [getWorkflowMetrics]
    rw [foldl_add_eq_sum, zero_add]
  · simp only [getWorkflowMetrics]
    rw [foldl_add_eq_sum, zero_add]

/-- C9 counterexample: with one completed execution out of two, the code
reports `successRate = 50` — `(completed / total) * 100`, the percentage
— not `completed / total = 1/2` as the claim reads. -/
theorem metrics_success_rate_cex :
    (getWorkflowMetrics stMetrics).completedExecutions = 1 ∧
    (getWorkflowMetrics stMetrics).totalExecutions = 2 ∧
    (getWorkflowMetrics stMetrics).successRate = 50 ∧
    (getWorkflowMetrics stMetrics).successRate ≠ (1 : ℚ) / 2 := by
  have h := (metrics_spec_aux stMetrics).2.2.2.1
  have hc : stMetrics.executions.countP
      (fun e => e.status == ExecStatus.completed) = 1 := rfl
  have hl : stMetrics.executions.length = 2 := rfl
  rw [h, hc, hl]
  refine ⟨rfl, rfl, by norm_num, by norm_num⟩

/-- C9 (amended): `getWorkflowMetrics` derives everything from the
in-memory log alone (it is a pure function of the current state, storing
no aggregate): counts of executions in each terminal state, a success
rate equal to completed divided by total *expressed as a percentage* (0
with no executions), the average duration of completed executions
*reported in whole rounded seconds* (`Math.round(avgMs / 1000)`, missing
end timestamps counting as zero duration), and per-action-kind tallies
obtained by scanning all results of all executions. -/
theorem metrics_spec (st : SysState) :
    (getWorkflowMetrics st).totalExecutions = st.executions.length ∧
    (getWorkflowMetrics st).completedExecutions =
      st.executions.countP (fun e => e.status == ExecStatus.completed) ∧
    (getWorkflowMetrics st).failedExecutions =
      st.executions.countP (fun e => e.status == ExecStatus.failed) ∧
    (getWorkflowMetrics st).successRate =
      (if st.executions.length = 0 then 0
       else ((st.executions.countP (fun e => e.status == ExecStatus.completed) : ℚ) * 100) /
        (st.executions.length : ℚ)) ∧
    (getWorkflowMetrics st).avgExecutionTime =
      round ((if (st.executions.filter fun e => e.status == ExecStatus.completed).length = 0
          then (0 : ℚ)
          else ((st.executions.filter fun e => e.status == ExecStatus.completed).map
              fun e => (execDuration e : ℚ)).sum /
            ((st.executions.filter fun e => e.status == ExecStatus.completed).length : ℚ)) /
        1000) ∧
    (getWorkflowMetrics st).emailsSent =
      (st.executions.map fun e =>
        (e.results.filter fun r => r.actionType == "send_email").length).sum ∧
    (getWorkflowMetrics st).tasksCreated =
      (st.executions.map fun e =>
        (e.results.filter fun r => r.actionType == "create_task").length).sum ∧
    (getWorkflowMetrics st).followUpsScheduled = st.followUpTasks.length :=
  metrics_spec_aux st

/-! ### Lead-repository and dispatch lemmas -/

theorem getLeadById_updateStatus (leads : List Lead) (lid s : String) :
    getLeadById (updateLeadStatusField leads lid s) lid =
      (getLeadById leads lid).map fun l => { l with status := s } := by
  induction leads with
  | nil => rfl
  | cons hd tl ih =>
    by_cases h : (hd.id == lid) = true
    · have h2 : (({ hd with status := s } : Lead).id == lid) = true := h
      simp only [updateLeadStatusField, List.map_cons, getLeadById] at ih ⊢
      rw [if_pos h]
      simp [List.find?_cons, h, h2]
    · have hb : (hd.id == lid) = false := by simpa using h
      simp only [updateLeadStatusField, List.map_cons, getLeadById] at ih ⊢
      rw [if_neg h]
      simp only [List.find?_cons, hb]
      exact ih

theorem mem_updateLeadStatusField {leads : List Lead} {lid s : String}
    {l' : Lead} (h : l' ∈ updateLeadStatusField leads lid s) :
    l'.status = s ∨ l' ∈ leads := by
  obtain ⟨x, hx, hfx⟩ := List.mem_map.mp h
  by_cases hid : x.id == lid
  · left
    rw [if_pos hid] at hfx
    rw [← hfx]
  · right
    rw [if_neg hid] at hfx
    rwa [← hfx]

theorem updateLeadStatusField_idem (leads : List Lead) (lid s : String) :
    updateLeadStatusField (updateLeadStatusField leads lid s) lid s =
      updateLeadStatusField leads lid s := by
  induction leads with
  | nil => rfl
  | cons hd tl ih =>
    simp only [updateLeadStatusField, List.map_cons] at ih ⊢
    by_cases h : hd.id == lid
    · rw [if_pos h]
      have : ({ hd with status := s } : Lead).id == lid := h
      rw [if_pos this]
      exact congrArg _ (by simpa [updateLeadStatusField] using ih)
    · rw [if_neg h, if_neg h]
      exact congrArg _ (by simpa [updateLeadStatusField] using ih)

/-- The lead a successful `getLeadById` returns carries the queried id. -/
theorem getLeadById_id {leads : List Lead} {lid : String} {lead : Lead}
    (h : getLeadById leads lid = some lead) : lead.id = lid := by
  have := List.find?_some h
  simpa using this

/-- `executeAction` on a `send_email` action with the transport
unconfigured and a succeeding `updateLead`: one `success` result whose
payload records a simulated delivery, and the lead set to `contacted`. -/
theorem executeAction_send_email_unconfigured (env : Env) (st : SysState)
    (lead : Lead) (aid albl : String)
    (hcfg : isConfigured env.emailConfig = false)
    (hupd : env.updateLeadFail st.updateLeadK = none) :
    executeAction env st { id := aid, type := .send_email, label := albl } lead =
      ({ st with
          updateLeadK := st.updateLeadK + 1,
          leads := updateLeadStatusField st.leads lead.id "contacted" },
       { actionId := aid,
         actionType := "send_email",
         actionLabel := albl,
         status := .success,
         message := "📧 Email simulated: \"" ++ renderSubject lead ++ "\" → " ++ lead.email,
         timestamp := st.now,
         data := some (.emailData (renderSubject lead) (renderBody env st lead)
           lead.email (some "simulated") none) }) := by
  unfold executeAction sendEmailH
  simp [hcfg, hupd, ActionType.toStr]

/-- `executeAction` on an `update_status` action with a succeeding
`updateLead`: one `success` result recording old/new status, and the
lead set to `contacted`. -/
theorem executeAction_update_status (env : Env) (st : SysState)
    (lead : Lead) (aid albl : String)
    (hupd : env.updateLeadFail st.updateLeadK = none) :
    executeAction env st { id := aid, type := .update_status, label := albl } lead =
      ({ st with
          updateLeadK := st.updateLeadK + 1,
          leads := updateLeadStatusField st.leads lead.id "contacted" },
       { actionId := aid,
         actionType := "update_status",
         actionLabel := albl,
         status := .success,
         message := "🔄 Status updated: " ++ lead.name ++ " → CONTACTED",
         timestamp := st.now,
         data := some (.statusData lead.status "contacted") }) := by
  unfold executeAction updateLeadStatusH
  simp [hupd, ActionType.toStr]

/-- `renderBody` reads only the clock of the state. -/
theorem renderBody_congr (env : Env) {st st' : SysState} (lead : Lead)
    (h : st'.now = st.now) :
    renderBody env st' lead = renderBody env st lead := by
  unfold renderBody
  rw [h]

/-- One pass of the action loop over a single-action list (no callback
supplied): no exception, one appended result, and the dispatch runs in a
state differing from the entry state only in the executions list. -/
theorem runLoop_single (env : Env) (lead : Lead) (st : SysState)
    (cur : WorkflowExecution) (act : WorkflowAction)
    (hcb : env.callback = none) :
    ∃ stMid,
      stMid.now = st.now ∧ stMid.updateLeadK = st.updateLeadK ∧
      stMid.transportK = st.transportK ∧ stMid.leads = st.leads ∧
      (runLoop env lead 1 st cur 0 [act]).2.2 = none ∧
      (runLoop env lead 1 st cur 0 [act]).2.1.results =
        cur.results ++ [(executeAction env stMid act lead).2] ∧
      (runLoop env lead 1 st cur 0 [act]).1.leads =
        (executeAction env stMid act lead).1.leads := by
  have hcbT := callbackTotal_of_none hcb
  have herr := updateProgressM_err_of_total hcbT st.executions cur
    ((((0 : Nat) : ℚ) + 1) / (((1 : Nat)) : ℚ) * 100) ("Executing: " ++ act.label)
  have hres := updateProgressM_results env st.executions cur
    ((((0 : Nat) : ℚ) + 1) / (((1 : Nat)) : ℚ) * 100) ("Executing: " ++ act.label)
  rcases hU : updateProgressM env st.executions cur
      ((((0 : Nat) : ℚ) + 1) / (((1 : Nat)) : ℚ) * 100) ("Executing: " ++ act.label) with
    ⟨execs', cur', err⟩
  rw [hU] at herr hres
  simp only at herr hres
  subst herr
  refine ⟨{ st with executions := execs' }, rfl, rfl, rfl, rfl, ?_, ?_, ?_⟩ <;>
    rcases hA : executeAction env { st with executions := execs' } act lead with
      ⟨stA, r⟩ <;>
    simp only [runLoop, hU, hA, hres]

/-- A single-action run with a resolvable lead and no callback: the
execution completes with exactly the dispatch result of the action, and
the final lead repository is the one the dispatch produced. -/
theorem run_single (env : Env) (st : SysState) (leadId : String) (lead : Lead)
    (act : WorkflowAction)
    (hcb : env.callback = none)
    (hlead : getLeadById st.leads leadId = some lead) :
    ∃ st' ex stMid,
      executeWorkflowForLead env st leadId [act] = (st', Except.ok ex) ∧
      ex.status = ExecStatus.completed ∧
      ex.progress = 100 ∧
      stMid.now = st.now ∧ stMid.updateLeadK = st.updateLeadK ∧
      stMid.transportK = st.transportK ∧ stMid.leads = st.leads ∧
      ex.results = [(executeAction env stMid act lead).2] ∧
      st'.leads = (executeAction env stMid act lead).1.leads := by
  have hcbT := callbackTotal_of_none hcb
  have herr1 := updateProgressM_err_of_total hcbT st.executions
    (startExecution st leadId [act] lead) 0 ("Starting workflow for " ++ lead.name)
  have hres1 := updateProgressM_results env st.executions
    (startExecution st leadId [act] lead) 0 ("Starting workflow for " ++ lead.name)
  rcases hU1 : updateProgressM env st.executions
      (startExecution st leadId [act] lead) 0
      ("Starting workflow for " ++ lead.name) with ⟨execs1, cur1, err1⟩
  rw [hU1] at herr1 hres1
  simp only at herr1 hres1
  subst herr1
  obtain ⟨stMid, hnow, hulk, htk, hleadsM, herrL, hresL, hleadsL⟩ :=
    runLoop_single env lead { st with executions := execs1 } cur1 act hcb
  rcases hL : runLoop env lead 1 { st with executions := execs1 } cur1 0 [act]
    with ⟨st2, cur2, errL⟩
  rw [hL] at herrL hresL hleadsL
  simp only at herrL hresL hleadsL
  subst herrL
  obtain ⟨st', ex, hfin, hstat, hres, hprog, hleads'⟩ := finishOk_spec hcbT st2 cur2
  refine ⟨st', ex, stMid, ?_, hstat, hprog, hnow, hulk, htk, ?_, ?_, ?_⟩
  · simp only [executeWorkflowForLead, hlead, hU1, List.length_cons,
      List.length_nil, hL]
    exact hfin
  · exact hleadsM
  · rw [hres, hresL, hres1]
    simp [startExecution]
  · rw [hleads', hleadsL]


/-- C6: with the email transport unconfigured (and the lead repository
collaborator succeeding), running the workflow extracted from a
definition holding the trigger plus one `Send Email`-labelled node
against a resolvable `"new"` lead completes the execution, records one
`success` result whose payload marks the delivery `simulated`, and sets
the lead's status to `contacted`. -/
theorem send_email_unconfigured_simulates (env : Env) (st : SysState)
    (leadId : String) (lead : Lead) (nid lbl : String)
    (edges : List (String × String))
    (hcfg : isConfigured env.emailConfig = false)
    (hcb : env.callback = none)
    (hupd : env.updateLeadFail st.updateLeadK = none)
    (hlead : getLeadById st.leads leadId = some lead)
    (_hnew : lead.status = "new")
    (hid : (nid == "1") = false)
    (hse : jsIncludes lbl "Send Email" = true)
    (hlc : jsIncludes lbl "Lead Created" = false) :
    extractActionsFromWorkflow
        { nodes := [{ id := "1", label := "📋 Lead Created" },
                    { id := nid, label := lbl }], edges := edges } =
      [{ id := nid, type := ActionType.send_email,
         label := "Send Welcome Email" }] ∧
    ∃ st' ex r,
      executeWorkflowForLead env st leadId
          (extractActionsFromWorkflow
            { nodes := [{ id := "1", label := "📋 Lead Created" },
                        { id := nid, label := lbl }], edges := edges }) =
        (st', Except.ok ex) ∧
      ex.status = ExecStatus.completed ∧
      ex.results = [r] ∧
      r.status = ResultStatus.success ∧
      r.data = some (ResultData.emailData (renderSubject lead)
        (renderBody env st lead) lead.email (some "simulated") none) ∧
      leadStatus st' leadId = some "contacted" := by
  have hext : extractActionsFromWorkflow
      { nodes := [{ id := "1", label := "📋 Lead Created" },
                  { id := nid, label := lbl }], edges := edges } =
      [{ id := nid, type := ActionType.send_email,
         label := "Send Welcome Email" }] := by
    have htrig : isActionNode { id := "1", label := "📋 Lead Created" } = false := rfl
    have hact : isActionNode { id := nid, label := lbl } = true := by
      simp [isActionNode, bne, hid, hlc]
    simp [extractActionsFromWorkflow, List.filter_cons, htrig, hact,
      List.filterMap_cons, classifyNode, hse]
  refine ⟨hext, ?_⟩
  rw [hext]
  obtain ⟨st', ex, stMid, hrun, hstat, hprog, hnow, hulk, htk, hleadsM, hres,
    hleads'⟩ :=
    run_single env st leadId lead
      { id := nid, type := ActionType.send_email, label := "Send Welcome Email" }
      hcb hlead
  have hupd2 : env.updateLeadFail stMid.updateLeadK = none := by
    rw [hulk]; exact hupd
  have hA := executeAction_send_email_unconfigured env stMid lead nid
    "Send Welcome Email" hcfg hupd2
  refine ⟨st', ex, _, hrun, hstat, hres, ?_, ?_, ?_⟩
  · rw [hA]
  · rw [hA]
    simp only
    rw [renderBody_congr env lead hnow]
  · unfold leadStatus
    rw [hleads']
    simp only [hA]
    rw [hleadsM, getLeadById_id hlead, getLeadById_updateStatus, hlead]
    rfl


/-- Dispatching any action either leaves the lead repository unchanged
or rewrites the target lead's status to `contacted` — no other status
value is ever written. -/
theorem executeAction_leads_cases (env : Env) (st : SysState)
    (a : WorkflowAction) (l : Lead) :
    (executeAction env st a l).1.leads = st.leads ∨
    (executeAction env st a l).1.leads =
      updateLeadStatusField st.leads l.id "contacted" := by
  rcases a with ⟨aid, ty, albl⟩
  cases ty with
  | send_email =>
    unfold executeAction sendEmailH
    by_cases hc : isConfigured env.emailConfig
    · cases htr : env.transport st.transportK with
      | accepted =>
        cases hu : env.updateLeadFail st.updateLeadK with
        | none => right; simp [hc, htr, hu]
        | some e => left; simp [hc, htr, hu]
      | rejected => left; simp [hc, htr]
      | thrown e => left; simp [hc, htr]
    · cases hu : env.updateLeadFail st.updateLeadK with
      | none => right; simp [hc, hu]
      | some e => left; simp [hc, hu]
  | update_status =>
    unfold executeAction updateLeadStatusH
    cases hu : env.updateLeadFail st.updateLeadK with
    | none => right; simp [hu]
    | some e => left; simp [hu]
  | create_task => left; rfl

/-- Looking up a lead after its status was rewritten yields the same
lead with the new status. -/
theorem leadStatus_after_update (leads : List Lead) (leadId : String)
    (lead : Lead) (hlead : getLeadById leads leadId = some lead) :
    getLeadById (updateLeadStatusField leads lead.id "contacted") leadId =
      some { lead with status := "contacted" } := by
  have hid := getLeadById_id hlead
  have hkey : updateLeadStatusField leads lead.id "contacted" =
      updateLeadStatusField leads leadId "contacted" := by rw [hid]
  rw [hkey, getLeadById_updateStatus, hlead]
  rfl

/-- C7: `update_status` is idempotent.  Dispatching it sets the lead's
status to `contacted` unconditionally with a `success` result; a second
dispatch on the re-fetched lead raises no error, returns `success` with
`oldStatus = newStatus = "contacted"`, and leaves the repository exactly
as after the first call.  Moreover no dispatch of any action ever writes
a status other than `contacted`: `new → contacted` is the only
transition, with no transition back. -/
theorem update_status_idempotent (env : Env) (st : SysState)
    (leadId : String) (lead : Lead) (aid albl : String)
    (hupd : ∀ k, env.updateLeadFail k = none)
    (hlead : getLeadById st.leads leadId = some lead) :
    (∀ st1 r1,
      executeAction env st { id := aid, type := ActionType.update_status, label := albl } lead = (st1, r1) →
      leadStatus st1 leadId = some "contacted" ∧
      r1.status = ResultStatus.success ∧
      ∀ lead2, getLeadById st1.leads leadId = some lead2 →
        ∀ st2 r2,
          executeAction env st1 { id := aid, type := ActionType.update_status, label := albl } lead2 = (st2, r2) →
          leadStatus st2 leadId = some "contacted" ∧
          r2.status = ResultStatus.success ∧
          r2.data = some (ResultData.statusData "contacted" "contacted") ∧
          st2.leads = st1.leads) ∧
    (∀ (a : WorkflowAction) (l l' : Lead),
      l' ∈ (executeAction env st a l).1.leads →
      l'.status = "contacted" ∨ l' ∈ st.leads) := by
  constructor
  · intro st1 r1 h1
    rw [executeAction_update_status env st lead aid albl (hupd _)] at h1
    cases h1
    refine ⟨?_, rfl, ?_⟩
    · show Option.map (fun l => l.status)
          (getLeadById (updateLeadStatusField st.leads lead.id "contacted") leadId) =
        some "contacted"
      rw [leadStatus_after_update st.leads leadId lead hlead]
      rfl
    · intro lead2 hlead2
      have hlead2a : getLeadById
          (updateLeadStatusField st.leads lead.id "contacted") leadId =
          some lead2 := hlead2
      have hl2 : lead2 = { lead with status := "contacted" } := by
        have := hlead2a
        rw [leadStatus_after_update st.leads leadId lead hlead] at this
        exact (Option.some.inj this).symm
      intro st2 r2 h2
      rw [executeAction_update_status env _ lead2 aid albl (hupd _)] at h2
      cases h2
      refine ⟨?_, rfl, ?_, ?_⟩
      · show Option.map (fun l => l.status)
            (getLeadById
              (updateLeadStatusField
                (updateLeadStatusField st.leads lead.id "contacted")
                lead2.id "contacted") leadId) =
          some "contacted"
        rw [leadStatus_after_update _ leadId lead2 hlead2a]
        rfl
      · show some (ResultData.statusData lead2.status "contacted") =
          some (ResultData.statusData "contacted" "contacted")
        rw [hl2]
      · show updateLeadStatusField
            (updateLeadStatusField st.leads lead.id "contacted")
            lead2.id "contacted" =
          updateLeadStatusField st.leads lead.id "contacted"
        have hid2 : lead2.id = lead.id := by rw [hl2]
        rw [hid2]
        exact updateLeadStatusField_idem st.leads lead.id "contacted"
  · intro a l l2 hmem
    rcases executeAction_leads_cases env st a l with h | h
    · right; rwa [h] at hmem
    · rw [h] at hmem
      exact mem_updateLeadStatusField hmem

/-- C6 witness: the spec's §8 scenario — Ann, transport unconfigured,
trigger plus one Send Email node. -/
theorem send_email_unconfigured_simulates_witness :
    extractActionsFromWorkflow
        { nodes := [{ id := "1", label := "📋 Lead Created" },
                    { id := "2", label := "📧 Send Email" }], edges := [] } =
      [{ id := "2", type := ActionType.send_email,
         label := "Send Welcome Email" }] ∧
    ∃ st' ex r,
      executeWorkflowForLead envPlain stAnn "1"
          (extractActionsFromWorkflow
            { nodes := [{ id := "1", label := "📋 Lead Created" },
                        { id := "2", label := "📧 Send Email" }], edges := [] }) =
        (st', Except.ok ex) ∧
      ex.status = ExecStatus.completed ∧
      ex.results = [r] ∧
      r.status = ResultStatus.success ∧
      r.data = some (ResultData.emailData (renderSubject annLead)
        (renderBody envPlain stAnn annLead) annLead.email (some "simulated") none) ∧
      leadStatus st' "1" = some "contacted" :=
  send_email_unconfigured_simulates envPlain stAnn "1" annLead "2"
    "📧 Send Email" [] rfl rfl rfl (by decide) rfl (by decide) (by decide)
    (by decide)

/-- C7 witness: both idempotence conclusions instantiated on the fixture
lead and the concrete `update_status` action. -/
theorem update_status_idempotent_witness :
    leadStatus (executeAction envPlain stAnn updAct annLead).1 "1" =
      some "contacted" ∧
    (executeAction envPlain stAnn updAct annLead).2.status =
      ResultStatus.success := by
  have h := (update_status_idempotent envPlain stAnn "1" annLead "3"
      "Update Lead Status" (fun _ => rfl) (by decide)).1
    (executeAction envPlain stAnn updAct annLead).1
    (executeAction envPlain stAnn updAct annLead).2 rfl
  exact ⟨h.1, h.2.1⟩

/-! ### Action dispatch claims -/

/-- C3 counterexample environment: transport configured but every send
resolves `false` (delivery rejected — no exception anywhere). -/
def envRej : Env :=
  { envPlain with
    emailConfig := some cfgSmtp,
    transport := fun _ => SendOutcome.rejected }

/-- C3 scenario environment: the first `updateLead` collaborator call
throws, later ones succeed. -/
def envBoom0 : Env :=
  { envPlain with
    updateLeadFail := fun k => if k == 0 then some "Error: boom" else none }

/-- Dispatch copies the action's id, type string and label into its one
result, whatever the collaborators do. -/
theorem executeAction_result_fields (env : Env) (st : SysState)
    (action : WorkflowAction) (lead : Lead) :
    (executeAction env st action lead).2.actionId = action.id ∧
    (executeAction env st action lead).2.actionType = action.type.toStr ∧
    (executeAction env st action lead).2.actionLabel = action.label := by
  rcases action with ⟨aid, ty, albl⟩
  cases ty with
  | send_email =>
    unfold executeAction sendEmailH
    by_cases hc : isConfigured env.emailConfig
    · cases htr : env.transport st.transportK with
      | accepted =>
        cases hu : env.updateLeadFail st.updateLeadK with
        | none => simp [hc, htr, hu]
        | some e => simp [hc, htr, hu]
      | rejected => simp [hc, htr]
      | thrown e => simp [hc, htr]
    · cases hu : env.updateLeadFail st.updateLeadK with
      | none => simp [hc, hu]
      | some e => simp [hc, hu]
  | update_status =>
    unfold executeAction updateLeadStatusH
    cases hu : env.updateLeadFail st.updateLeadK with
    | none => simp [hu]
    | some e => simp [hu]
  | create_task => exact ⟨rfl, rfl, rfl⟩

/-- Dispatch never emits the `skipped` status. -/
theorem executeAction_status_cases (env : Env) (st : SysState)
    (action : WorkflowAction) (lead : Lead) :
    (executeAction env st action lead).2.status = ResultStatus.success ∨
    (executeAction env st action lead).2.status = ResultStatus.failed := by
  rcases action with ⟨aid, ty, albl⟩
  cases ty with
  | send_email =>
    unfold executeAction sendEmailH
    by_cases hc : isConfigured env.emailConfig
    · cases htr : env.transport st.transportK with
      | accepted =>
        cases hu : env.updateLeadFail st.updateLeadK with
        | none => simp [hc, htr, hu]
        | some e => simp [hc, htr, hu]
      | rejected => simp [hc, htr]
      | thrown e => simp [hc, htr]
    · cases hu : env.updateLeadFail st.updateLeadK with
      | none => simp [hc, hu]
      | some e => simp [hc, hu]
  | update_status =>
    unfold executeAction updateLeadStatusH
    cases hu : env.updateLeadFail st.updateLeadK with
    | none => simp [hu]
    | some e => simp [hu]
  | create_task => left; rfl

/-- When no collaborator call throws and the transport never rejects,
every dispatch result is `success`. -/
theorem executeAction_success (env : Env) (st : SysState)
    (action : WorkflowAction) (lead : Lead)
    (hupd : ∀ k, env.updateLeadFail k = none)
    (hrej : ∀ k, env.transport k ≠ SendOutcome.rejected) :
    (executeAction env st action lead).2.status = ResultStatus.success := by
  rcases action with ⟨aid, ty, albl⟩
  cases ty with
  | send_email =>
    unfold executeAction sendEmailH
    by_cases hc : isConfigured env.emailConfig
    · cases htr : env.transport st.transportK with
      | accepted => simp [hc, htr, hupd]
      | rejected => exact absurd htr (hrej _)
      | thrown e => simp [hc, htr]
    · simp [hc, hupd]
  | update_status =>
    unfold executeAction updateLeadStatusH
    simp [hupd]
  | create_task => rfl

/-- A `failed` dispatch result carries either the caught exception
message (`Failed: <error>`) or the transport-rejection message. -/
theorem executeAction_failed_message (env : Env) (st : SysState)
    (action : WorkflowAction) (lead : Lead)
    (h : (executeAction env st action lead).2.status = ResultStatus.failed) :
    (∃ e, (executeAction env st action lead).2.message = "Failed: " ++ e) ∨
    (executeAction env st action lead).2.message =
      "❌ Failed to send email: \"" ++ renderSubject lead ++ "\" → " ++ lead.email := by
  rcases action with ⟨aid, ty, albl⟩
  cases ty with
  | send_email =>
    unfold executeAction sendEmailH at h ⊢
    by_cases hc : isConfigured env.emailConfig
    · cases htr : env.transport st.transportK with
      | accepted =>
        cases hu : env.updateLeadFail st.updateLeadK with
        | none => rw [hc] at h; simp [htr, hu] at h
        | some e => rw [hc] at h; simp [htr, hu] at h
      | rejected => right; simp [hc, htr]
      | thrown e => rw [hc] at h; simp [htr] at h
    · cases hu : env.updateLeadFail st.updateLeadK with
      | none => simp [hc, hu] at h
      | some e => left; exact ⟨e, by simp [hc, hu]⟩
  | update_status =>
    unfold executeAction updateLeadStatusH at h ⊢
    cases hu : env.updateLeadFail st.updateLeadK with
    | none => simp [hu] at h
    | some e => left; exact ⟨e, by simp [hu]⟩
  | create_task => cases h

/-- C3 counterexample: with the transport configured and rejecting the
delivery (the send call resolves `false` — nothing throws, every
`updateLead` call succeeds), the `send_email` dispatch emits a single
result with status `failed` whose message is the delivery-failure text,
not an exception message — so "status success unless the handler throws"
is false as stated. -/
theorem dispatch_failed_without_throw_cex :
    (envRej.updateLeadFail = fun _ => none) ∧
    (envRej.transport = fun _ => SendOutcome.rejected) ∧
    (executeAction envRej stAnn sendAct annLead).2.status = ResultStatus.failed ∧
    (executeAction envRej stAnn sendAct annLead).2.message =
      "❌ Failed to send email: \"Welcome to Piazza CRM, Ann!\" → a@x.com" :=
  ⟨rfl, rfl, by decide, by decide⟩

/-- C3 (amended): dispatch produces exactly one `WorkflowResult` per
action (never `skipped`, no retry) carrying the action's id/kind/label;
the result is `success` unless the handler throws — which yields status
`failed` with the exception message `Failed: <error>` — or the
configured email transport rejects the delivery, which also yields
`failed` but with a delivery-failure message; and a run of n actions
under a non-throwing progress callback still terminates `completed` with
exactly n results even when handlers throw, the throwing actions marked
`failed` and the others `success` (concretely: three actions with the
middle `update_status` throwing give results success/failed/success on a
completed execution). -/
theorem action_dispatch_spec (env : Env) (st : SysState) (lead : Lead)
    (action : WorkflowAction) (leadId : String)
    (actions : List WorkflowAction)
    (hcb : CallbackTotal env)
    (hlead : getLeadById st.leads leadId = some lead) :
    ((executeAction env st action lead).2.actionId = action.id ∧
     (executeAction env st action lead).2.actionType = action.type.toStr ∧
     (executeAction env st action lead).2.actionLabel = action.label) ∧
    ((executeAction env st action lead).2.status = ResultStatus.success ∨
     (executeAction env st action lead).2.status = ResultStatus.failed) ∧
    ((∀ k, env.updateLeadFail k = none) →
     (∀ k, env.transport k ≠ SendOutcome.rejected) →
     (executeAction env st action lead).2.status = ResultStatus.success) ∧
    ((executeAction env st action lead).2.status = ResultStatus.failed →
     (∃ e, (executeAction env st action lead).2.message = "Failed: " ++ e) ∨
     (executeAction env st action lead).2.message =
       "❌ Failed to send email: \"" ++ renderSubject lead ++ "\" → " ++ lead.email) ∧
    (∃ st' ex,
      executeWorkflowForLead env st leadId actions = (st', Except.ok ex) ∧
      ex.status = ExecStatus.completed ∧
      ex.results.length = actions.length) ∧
    ((executeWorkflowForLead envBoom0 stAnn "1"
        [taskAct, updAct, taskAct]).2.toOption.map
      fun ex => (ex.status, ex.results.map fun r => r.status)) =
      some (ExecStatus.completed,
        [ResultStatus.success, ResultStatus.failed, ResultStatus.success]) := by
  refine ⟨executeAction_result_fields env st action lead,
    executeAction_status_cases env st action lead,
    executeAction_success env st action lead,
    executeAction_failed_message env st action lead, ?_, by decide⟩
  obtain ⟨st', ex, hrun, hstat, hlen, _⟩ :=
    run_total_spec env st leadId actions lead hcb hlead
  exact ⟨st', ex, hrun, hstat, hlen⟩

/-- C3 witness: the dispatch conclusions and the completed-run
conclusion instantiated on the fixtures. -/
theorem action_dispatch_spec_witness :
    ((executeAction envPlain stAnn sendAct annLead).2.status =
        ResultStatus.success ∨
     (executeAction envPlain stAnn sendAct annLead).2.status =
        ResultStatus.failed) ∧
    (∃ st' ex,
      executeWorkflowForLead envPlain stAnn "1" [taskAct] =
        (st', Except.ok ex) ∧
      ex.status = ExecStatus.completed ∧
      ex.results.length = 1) :=
  have h := action_dispatch_spec envPlain stAnn annLead sendAct "1" [taskAct]
    (callbackTotal_of_none rfl) (by decide)
  ⟨h.2.1, h.2.2.2.2.1⟩

end PiazzaCRM
